import Mathlib

/-!
# Identity policy resource: fingerprint and ETag diff suppression

A shallow embedding of `resource_obmcs_identity_policy.go`.

Modelling conventions.

* A Go `string` is a Lean `String` (Unicode text); where the program turns a
  string into bytes (`[]byte(s)`) the model takes its UTF-8 encoding.
* A Go byte or 32-bit word is a `Nat`, reduced `% 256` or `% 2^32` where the
  program's arithmetic wraps.
* A pointer that may be nil is an `Option`; dereferencing `none` is a panic.
* `*schema.ResourceData` is a record with one field per schema key; a key that
  was never set holds the zero value of its type, as `d.Get` reports it.
* The list key `statements` holds the `[]interface{}` that `d.Get` yields:
  an element is `some s` for the string `s` and `none` for a nil element,
  on which the type assertion `val.(string)` panics.
* A function that may panic returns an `Option` or an `Outcome`.
* The remote client is a record of functions giving the answer of each call.
-/

namespace PolicyResource

/-! ## Library functions the resource calls -/

/-- Go `strings.Join(elems, sep)`: the elements in order, `sep` between
neighbours, the empty string for no element. -/
def Join : List String → String → String
  | [], _ => ""
  | [a], _ => a
  | a :: b :: rest, sep => a ++ sep ++ Join (b :: rest) sep

/-- Go `[]byte(s)`: the UTF-8 bytes of the string. -/
def bytesOf (s : String) : List Nat :=
  (s.data.flatMap String.utf8EncodeChar).map UInt8.toNat

/-- Two to the thirty-second, the modulus of the digest words. -/
def word32 : Nat := 4294967296

/-- Rotate a 32-bit word left by `s` bits. -/
def rotl32 (x s : Nat) : Nat :=
  ((x <<< s) % word32) ||| (x >>> (32 - s))

/-- Bitwise complement of a 32-bit word. -/
def not32 (x : Nat) : Nat := x ^^^ 4294967295

/-- Per-round shift amounts of MD5 (RFC 1321). -/
def md5Shift : List Nat :=
  [7, 12, 17, 22, 7, 12, 17, 22, 7, 12, 17, 22, 7, 12, 17, 22,
   5, 9, 14, 20, 5, 9, 14, 20, 5, 9, 14, 20, 5, 9, 14, 20,
   4, 11, 16, 23, 4, 11, 16, 23, 4, 11, 16, 23, 4, 11, 16, 23,
   6, 10, 15, 21, 6, 10, 15, 21, 6, 10, 15, 21, 6, 10, 15, 21]

/-- Per-round additive constants of MD5 (RFC 1321). -/
def md5K : List Nat :=
  [0xd76aa478, 0xe8c7b756, 0x242070db, 0xc1bdceee,
   0xf57c0faf, 0x4787c62a, 0xa8304613, 0xfd469501,
   0x698098d8, 0x8b44f7af, 0xffff5bb1, 0x895cd7be,
   0x6b901122, 0xfd987193, 0xa679438e, 0x49b40821,
   0xf61e2562, 0xc040b340, 0x265e5a51, 0xe9b6c7aa,
   0xd62f105d, 0x02441453, 0xd8a1e681, 0xe7d3fbc8,
   0x21e1cde6, 0xc33707d6, 0xf4d50d87, 0x455a14ed,
   0xa9e3e905, 0xfcefa3f8, 0x676f02d9, 0x8d2a4c8a,
   0xfffa3942, 0x8771f681, 0x6d9d6122, 0xfde5380c,
   0xa4beea44, 0x4bdecfa9, 0xf6bb4b60, 0xbebfbc70,
   0x289b7ec6, 0xeaa127fa, 0xd4ef3085, 0x04881d05,
   0xd9d4d039, 0xe6db99e5, 0x1fa27cf8, 0xc4ac5665,
   0xf4292244, 0x432aff97, 0xab9423a7, 0xfc93a039,
   0x655b59c3, 0x8f0ccc92, 0xffeff47d, 0x85845dd1,
   0x6fa87e4f, 0xfe2ce6e0, 0xa3014314, 0x4e0811a1,
   0xf7537e82, 0xbd3af235, 0x2ad7d2bb, 0xeb86d391]

/-- The four chaining words of MD5. -/
structure Md5State where
  a : Nat
  b : Nat
  c : Nat
  d : Nat
  deriving DecidableEq, Repr

/-- Initial chaining value of MD5. -/
def md5Init : Md5State := ⟨0x67452301, 0xefcdab89, 0x98badcfe, 0x10325476⟩

/-- The `n` low bytes of `x`, least significant first. -/
def leBytes : Nat → Nat → List Nat
  | 0, _ => []
  | n + 1, x => (x % 256) :: leBytes n (x / 256)

/-- MD5 padding: a 0x80 byte, zero bytes up to 56 modulo 64, then the bit
length of the message as eight little-endian bytes. -/
def md5Pad (msg : List Nat) : List Nat :=
  msg ++ [128] ++ List.replicate ((119 - msg.length % 64) % 64) 0
    ++ leBytes 8 (8 * msg.length)

/-- Little-endian 32-bit word number `g` of a block. -/
def md5Word (block : List Nat) (g : Nat) : Nat :=
  block.getD (4 * g) 0 + 256 * block.getD (4 * g + 1) 0
    + 65536 * block.getD (4 * g + 2) 0 + 16777216 * block.getD (4 * g + 3) 0

/-- One of the sixty-four steps of the MD5 compression function. -/
def md5Step (block : List Nat) (st : Md5State) (i : Nat) : Md5State :=
  let f :=
    if i < 16 then (st.b &&& st.c) ||| (not32 st.b &&& st.d)
    else if i < 32 then (st.d &&& st.b) ||| (not32 st.d &&& st.c)
    else if i < 48 then st.b ^^^ st.c ^^^ st.d
    else st.c ^^^ (st.b ||| not32 st.d)
  let g :=
    if i < 16 then i
    else if i < 32 then (5 * i + 1) % 16
    else if i < 48 then (3 * i + 5) % 16
    else (7 * i) % 16
  let t := (f + st.a + md5K.getD i 0 + md5Word block g) % word32
  ⟨st.d, (st.b + rotl32 t (md5Shift.getD i 0)) % word32, st.b, st.c⟩

/-- MD5 compression of one 64-byte block into the chaining value. -/
def md5Block (st : Md5State) (block : List Nat) : Md5State :=
  let r := (List.range 64).foldl (md5Step block) st
  ⟨(st.a + r.a) % word32, (st.b + r.b) % word32,
   (st.c + r.c) % word32, (st.d + r.d) % word32⟩

/-- Go `md5.Sum(data)`: the sixteen bytes of the MD5 digest. -/
def md5Sum (data : List Nat) : List Nat :=
  let padded := md5Pad data
  let st := (List.range (padded.length / 64)).foldl
    (fun st i => md5Block st ((padded.drop (64 * i)).take 64)) md5Init
  leBytes 4 st.a ++ leBytes 4 st.b ++ leBytes 4 st.c ++ leBytes 4 st.d

/-- Lower-case hexadecimal digit of a value below sixteen. -/
def hexDigit (n : Nat) : Char := "0123456789abcdef".data.getD n '0'

/-- Go `fmt.Sprintf("%x", bytes)` on a byte array: two lower-case
hexadecimal digits per byte. -/
def sprintfHex (bytes : List Nat) : String :=
  ⟨bytes.flatMap fun b => [hexDigit (b / 16 % 16), hexDigit (b % 16)]⟩

/-- The Unicode case-orbit table behind Go `unicode.SimpleFold`, as far as
`strings.EqualFold` consults it. For two different runes `lo < hi` with `hi`
outside ASCII, `tbl lo hi` is the answer of the orbit walk
`r := SimpleFold(lo); for r != lo && r < hi { r = SimpleFold(r) }; r == hi`.
The table is data of the Go runtime and is taken as given. -/
abbrev FoldTable := Nat → Nat → Bool

/-- One rune comparison of Go `strings.EqualFold`: equal runes match; two
different ASCII runes match when the smaller is an upper-case letter and the
larger is its lower-case form; otherwise the case-orbit table decides. -/
def foldRune (tbl : FoldTable) (sr tr : Nat) : Bool :=
  if tr = sr then true
  else
    let lo := min sr tr
    let hi := max sr tr
    if hi < 128 then decide (65 ≤ lo ∧ lo ≤ 90 ∧ hi = lo + 32)
    else tbl lo hi

/-- The rune loop of Go `strings.EqualFold`: compare rune by rune, fail at
the first pair that does not match, and at the end require both strings to
be exhausted. -/
def equalFoldRunes (tbl : FoldTable) : List Char → List Char → Bool
  | [], [] => true
  | sr :: s, tr :: t =>
    if foldRune tbl sr.toNat tr.toNat then equalFoldRunes tbl s t else false
  | _, _ => false

/-- Go `strings.EqualFold(s, t)`: equality under Unicode simple case
folding. -/
def EqualFold (tbl : FoldTable) (s t : String) : Bool :=
  equalFoldRunes tbl s.data t.data

/-! ## The resource -/

/-- Go `error`, by its message. -/
abbrev Error := String

/-- SDK timestamp. The resource only renders it with `String()`, so the
value is carried as that rendering. -/
structure Time where
  text : String
  deriving DecidableEq, Repr

/-- SDK `baremetal.Policy`: the remote policy as a response returns it. -/
structure Policy where
  ID : String
  Name : String
  Description : String
  CompartmentID : String
  State : String
  Statements : List String
  ETag : String
  TimeCreated : Time
  deriving DecidableEq, Repr

/-- SDK `baremetal.UpdatePolicyOptions`. A nil `Statements` slice is
`none`. -/
structure UpdatePolicyOptions where
  Description : String := ""
  Statements : Option (List String) := none
  deriving DecidableEq, Repr

/-- The tracked record `*schema.ResourceData`, one field per key of
`policySchema`. An unset key holds the zero value of its type. The elements
of `statements` are the interface values `d.Get("statements")` yields:
`some s` for a string, `none` for nil. -/
structure ResourceData where
  id : String := ""
  name : String := ""
  description : String := ""
  compartment_id : String := ""
  state : String := ""
  time_created : String := ""
  time_modified : String := ""
  statements : List (Option String) := []
  ETag : String := ""
  policyHash : String := ""
  lastUpdateETag : String := ""
  inactive_state : Int := 0
  version_date : String := ""
  deriving DecidableEq, Repr

/-- Library `d.GetOk(key)` on a string key: the value, and whether it is set
to something other than the zero value `""`. -/
def GetOk (value : String) : String × Bool := (value, value != "")

/-- Library `d.GetOk(key)` on a list key: the list, and whether it is set to
something other than the zero value, the empty list. -/
def GetOkList (value : List (Option String)) : List (Option String) × Bool :=
  (value, !value.isEmpty)

/-- The remote client `*baremetal.Client`: the answer of each call as a
function of the request. A nil result pointer or nil error is `none`. -/
structure Client where
  CreatePolicy : String → String → String → List String → Option Policy × Option Error
  GetPolicy : String → Option Policy × Option Error
  UpdatePolicy : String → UpdatePolicyOptions → Option Policy × Option Error
  DeletePolicy : String → Option Error

/-- A request sent to the remote service. -/
inductive Call where
  | CreatePolicy (name description compartmentID : String) (statements : List String)
  | GetPolicy (id : String)
  | UpdatePolicy (id : String) (opts : UpdatePolicyOptions)
  | DeletePolicy (id : String)
  deriving DecidableEq, Repr

/-- Source `PolicyResourceCrud`: the record `D`, the client and the last
remote resource `Res` (a pointer, nil until a call stores one). `calls` is a
ghost field listing the remote requests issued so far, oldest first. -/
structure PolicyResourceCrud where
  D : ResourceData
  Client : Client
  Res : Option Policy := none
  calls : List Call := []

/-- How a method ends: it returns, with the state it leaves and its error
result, or it panics (nil pointer, failed type assertion), with the state
written so far. -/
inductive Outcome where
  | returned (s : PolicyResourceCrud) (e : Option Error)
  | panicked (s : PolicyResourceCrud)

/-- SDK state names, as the specification lists them. -/
def ResourceCreating : String := "CREATING"

/-- SDK state name of a live resource. -/
def ResourceActive : String := "ACTIVE"

/-- SDK state name of a resource being deleted. -/
def ResourceDeleting : String := "DELETING"

/-- SDK state name of a deleted resource. -/
def ResourceDeleted : String := "DELETED"

/-- Source `toStringArray`: assert every element to be a string and append
it to a fresh slice, in order. The assertion `val.(string)` panics on a nil
element; `none` is that panic. -/
def toStringArray (vals : List (Option String)) : Option (List String) :=
  vals.foldl
    (fun result val =>
      match result, val with
      | some result, some str => some (result ++ [str])
      | _, _ => none)
    (some [])

/-- Source `getOrDefault`: the value of the key when `GetOk` reports it set,
the default otherwise. The key is given by its field. -/
def getOrDefault (d : ResourceData) (key : ResourceData → String)
    (defaultValue : String) : String :=
  let valueString := defaultValue
  match GetOk (key d) with
  | (value, true) => value
  | (_, false) => valueString

/-- Source `getMD5Hash`: join the statements with `#` and render the MD5
digest of the result in hexadecimal. -/
def getMD5Hash (values : List String) : String :=
  let statements := Join values "#"
  sprintfHex (md5Sum (bytesOf statements))

/-- Source `ignorePolicyFormatDiff`: the diff-suppression function of the
`statements` key. `d.Get("statements")` is the desired statement list. The
result is `none` when `toStringArray` panics. -/
def ignorePolicyFormatDiff (tbl : FoldTable) (_k _old _new : String)
    (d : ResourceData) : Option Bool :=
  let oldHash := getOrDefault d ResourceData.policyHash ""
  match toStringArray d.statements with
  | none => none
  | some statements =>
    let newHash := getMD5Hash statements
    let oldETag := getOrDefault d ResourceData.lastUpdateETag ""
    let currentETag := getOrDefault d ResourceData.ETag ""
    let suppressDiff := EqualFold tbl oldHash newHash && EqualFold tbl oldETag currentETag
    some suppressDiff

/-- Source `PolicyResourceCrud.DeletedPending`. -/
def DeletedPending (_s : PolicyResourceCrud) : List String := [ResourceDeleting]

/-- Source `PolicyResourceCrud.DeletedTarget`. -/
def DeletedTarget (_s : PolicyResourceCrud) : List String := [ResourceDeleted]

/-- Source `PolicyResourceCrud.Create`. A panic of `toStringArray` ends the
method before any request. The error of the remote call is not inspected
before the record is written and `s.Res.ETag` is read. -/
def Create (s : PolicyResourceCrud) : Outcome :=
  let name := s.D.name
  let description := s.D.description
  let compartmentID := s.D.compartment_id
  match toStringArray s.D.statements with
  | none => Outcome.panicked s
  | some statements =>
    match s.Client.CreatePolicy name description compartmentID statements with
    | (res, e) =>
      let calls := s.calls ++ [Call.CreatePolicy name description compartmentID statements]
      let d1 := { s.D with policyHash := getMD5Hash statements }
      match res with
      | none => Outcome.panicked { s with D := d1, Res := none, calls := calls }
      | some r =>
        let d2 := { d1 with lastUpdateETag := r.ETag }
        Outcome.returned { s with D := d2, Res := some r, calls := calls } e

/-- Source `PolicyResourceCrud.Get`. -/
def Get (s : PolicyResourceCrud) : Outcome :=
  let calls := s.calls ++ [Call.GetPolicy s.D.id]
  match s.Client.GetPolicy s.D.id with
  | (res, none) => Outcome.returned { s with Res := res, calls := calls } none
  | (_, some e) => Outcome.returned { s with calls := calls } (some e)

/-- Source `PolicyResourceCrud.Update`. A panic of `toStringArray` ends the
method before the record is written and before any request. -/
def Update (s : PolicyResourceCrud) : Outcome :=
  let opts : UpdatePolicyOptions := {}
  let opts :=
    match GetOk s.D.description with
    | (description, true) => { opts with Description := description }
    | (_, false) => opts
  let written : Option (UpdatePolicyOptions × ResourceData) :=
    match GetOkList s.D.statements with
    | (rawStatements, true) =>
      match toStringArray rawStatements with
      | none => none
      | some statements =>
        some ({ opts with Statements := some statements },
              { s.D with policyHash := getMD5Hash statements })
    | (_, false) => some (opts, s.D)
  match written with
  | none => Outcome.panicked s
  | some (opts, d1) =>
    match s.Client.UpdatePolicy s.D.id opts with
    | (res, e) =>
      let calls := s.calls ++ [Call.UpdatePolicy s.D.id opts]
      match res with
      | none => Outcome.panicked { s with D := d1, Res := none, calls := calls }
      | some r =>
        let d2 := { d1 with lastUpdateETag := r.ETag }
        Outcome.returned { s with D := d2, Res := some r, calls := calls } e

/-- Source `PolicyResourceCrud.SetData`: copy the remote resource into the
record. -/
def SetData (s : PolicyResourceCrud) : Outcome :=
  match s.Res with
  | none => Outcome.panicked s
  | some res =>
    let d := { s.D with statements := res.Statements.map some }
    let d := { d with ETag := res.ETag }
    let d := { d with name := res.Name }
    let d := { d with description := res.Description }
    let d := { d with compartment_id := res.CompartmentID }
    let d := { d with state := res.State }
    let d := { d with time_created := res.TimeCreated.text }
    Outcome.returned { s with D := d } none

/-- Source `PolicyResourceCrud.Delete`. -/
def Delete (s : PolicyResourceCrud) : Outcome :=
  Outcome.returned { s with calls := s.calls ++ [Call.DeletePolicy s.D.id] }
    (s.Client.DeletePolicy s.D.id)

/-- Source `deletePolicy`, the function bound as the schema's `Delete`. -/
def deletePolicy (d : ResourceData) (m : Client) : Outcome :=
  let sync : PolicyResourceCrud := { D := d, Client := m }
  Delete sync

/-! ## The plan step of a reconciliation pass -/

/-- The configured keys of `policySchema` (the Required ones): the desired
state of a reconciliation pass. -/
structure Config where
  name : String
  description : String
  compartment_id : String
  statements : List String
  deriving DecidableEq, Repr

/-- What a reconciliation pass asks for an existing resource: nothing, an
Update call, or destroy and create anew. -/
inductive Action where
  | noop
  | update
  | replace
  deriving DecidableEq, Repr

/-- The record as the plan step hands it to a diff-suppression function:
configured keys from the configuration, computed keys from the refreshed
record. -/
def planRecord (d : ResourceData) (cfg : Config) : ResourceData :=
  { d with
    name := cfg.name
    description := cfg.description
    compartment_id := cfg.compartment_id
    statements := cfg.statements.map some }

/-- Modelled from the spec: the plan step of a reconciliation pass over an
existing resource, which belongs to the schema framework and is not under
`src/`. Drift is a difference between the desired value of a configured key
and the refreshed record. A drift of `statements` is dropped when the
diff-suppression function of that key returns true; a drift of `name`, the
ForceNew key of `policySchema`, replaces the resource; any other drift
issues an Update call; without drift nothing is issued. -/
def planAction (tbl : FoldTable) (d : ResourceData) (cfg : Config) : Action :=
  let statementsDrift : Bool :=
    decide (d.statements ≠ cfg.statements.map some) &&
      !(ignorePolicyFormatDiff tbl "statements" "" "" (planRecord d cfg) == some true)
  if cfg.name ≠ d.name then Action.replace
  else if cfg.description ≠ d.description ∨ cfg.compartment_id ≠ d.compartment_id ∨
      statementsDrift = true then Action.update
  else Action.noop

/-! ## Reading an outcome -/

/-- The state a method leaves, whether it returned or panicked. -/
def Outcome.state : Outcome → PolicyResourceCrud
  | Outcome.returned s _ => s
  | Outcome.panicked s => s

/-- The record a method leaves. -/
def Outcome.record (o : Outcome) : ResourceData := o.state.D

/-- The error result of a method that returned: `some none` for success,
`some (some e)` for the error `e`, and `none` when the method panicked. -/
def Outcome.result : Outcome → Option (Option Error)
  | Outcome.returned _ e => some e
  | Outcome.panicked _ => none

/-- The remote requests issued up to the end of the method. -/
def Outcome.calls (o : Outcome) : List Call := o.state.calls

/-! ## Concrete records and remotes used in the examples -/

/-- A remote policy in state ACTIVE with ETag `E1`. -/
def activePolicy : Policy :=
  { ID := "ocid1.policy.1", Name := "remote-name", Description := "remote description",
    CompartmentID := "ocid1.compartment.2", State := ResourceActive,
    Statements := ["Allow group A to read buckets"], ETag := "E1",
    TimeCreated := ⟨"2017-06-01 10:00:00 +0000 UTC"⟩ }

/-- A remote policy that echoes the desired name, description and
compartment of `freshRecord`, with the statements rewritten in lower case. -/
def echoPolicy : Policy :=
  { activePolicy with
    Name := "p", Description := "d", CompartmentID := "c",
    Statements := ["allow group a to read buckets", "allow group a to write objects"] }

/-- A remote policy that echoes the desired name and compartment of
`freshRecord` and stores the description in upper case. -/
def driftedPolicy : Policy := { echoPolicy with Description := "D" }

/-- A remote policy that is still being deleted. -/
def deletingPolicy : Policy := { activePolicy with State := ResourceDeleting }

/-- A remote on which every write succeeds and answers `activePolicy`. -/
def okClient : Client :=
  { CreatePolicy := fun _ _ _ _ => (some activePolicy, none)
    GetPolicy := fun _ => (some activePolicy, none)
    UpdatePolicy := fun _ _ => (some activePolicy, none)
    DeletePolicy := fun _ => none }

/-- A remote on which every write succeeds and answers `echoPolicy`. -/
def echoClient : Client :=
  { CreatePolicy := fun _ _ _ _ => (some echoPolicy, none)
    GetPolicy := fun _ => (some echoPolicy, none)
    UpdatePolicy := fun _ _ => (some echoPolicy, none)
    DeletePolicy := fun _ => none }

/-- A remote on which every write succeeds and answers `driftedPolicy`. -/
def driftedClient : Client :=
  { CreatePolicy := fun _ _ _ _ => (some driftedPolicy, none)
    GetPolicy := fun _ => (some driftedPolicy, none)
    UpdatePolicy := fun _ _ => (some driftedPolicy, none)
    DeletePolicy := fun _ => none }

/-- A remote on which every call fails with a transport error and no
resource. -/
def failingClient : Client :=
  { CreatePolicy := fun _ _ _ _ => (none, some "503 Service Unavailable")
    GetPolicy := fun _ => (none, some "503 Service Unavailable")
    UpdatePolicy := fun _ _ => (none, some "503 Service Unavailable")
    DeletePolicy := fun _ => some "503 Service Unavailable" }

/-- A remote on which every write fails but still hands back a resource
next to the error. -/
def halfFailingClient : Client :=
  { CreatePolicy := fun _ _ _ _ => (some { activePolicy with ETag := "E9" }, some "500")
    GetPolicy := fun _ => (none, some "500")
    UpdatePolicy := fun _ _ => (some { activePolicy with ETag := "E9" }, some "500")
    DeletePolicy := fun _ => some "500" }

/-- A remote that accepts the delete request and keeps reporting the policy
in state DELETING. -/
def deletingClient : Client :=
  { CreatePolicy := fun _ _ _ _ => (none, some "409 Conflict")
    GetPolicy := fun _ => (some deletingPolicy, none)
    UpdatePolicy := fun _ _ => (none, some "409 Conflict")
    DeletePolicy := fun _ => none }

/-- A record written for the statement `allow`, whose observed ETag differs
from the stored one in letter case only. -/
def caseDriftRecord : ResourceData :=
  { id := "ocid1.policy.1", name := "p", description := "d", compartment_id := "c",
    statements := [some "allow"], policyHash := getMD5Hash ["allow"],
    lastUpdateETag := "e1", ETag := "E1" }

/-- A record last written with one statement and ETag `E0`; the desired
statement list is now empty. -/
def emptiedRecord : ResourceData :=
  { id := "ocid1.policy.1", name := "p", description := "d", compartment_id := "c",
    statements := [], policyHash := getMD5Hash ["allow"],
    lastUpdateETag := "E0", ETag := "E0" }

/-- Two desired statements. -/
def freshStatements : List String :=
  ["Allow group A to read buckets", "Allow group A to write objects"]

/-- A record that was never written, with the two desired statements. -/
def freshRecord : ResourceData :=
  { name := "p", description := "d", compartment_id := "c",
    statements := freshStatements.map some }

/-- The configuration behind `freshRecord`. -/
def freshConfig : Config :=
  { name := "p", description := "d", compartment_id := "c", statements := freshStatements }

/-- A record that was never written, whose second statement is read as
nil. -/
def nilElementRecord : ResourceData :=
  { name := "p", description := "d", compartment_id := "c",
    statements := [some "allow", none] }

/-- A record last written with the statement `allow` at ETag `E0`; the
desired statement is now `deny`. -/
def writtenRecord : ResourceData :=
  { id := "ocid1.policy.1", name := "p", description := "d", compartment_id := "c",
    statements := [some "deny"], policyHash := getMD5Hash ["allow"],
    lastUpdateETag := "E0", ETag := "E0" }

/-- A fold table without any fold outside ASCII, for the examples. -/
def asciiTable : FoldTable := fun _ _ => false


/-! ## Auxiliary lemmas -/

theorem toStringArray_loop_some (acc L : List String) :
    (L.map some).foldl
      (fun result val =>
        match result, val with
        | some result, some str => some (result ++ [str])
        | _, _ => none)
      (some acc) = some (acc ++ L) := by
  induction L generalizing acc with
  | nil => simp
  | cons v vs ih => simp [ih]

theorem toStringArray_loop_none (vals : List (Option String)) :
    vals.foldl
      (fun result val =>
        match result, val with
        | some result, some str => some (result ++ [str])
        | _, _ => (none : Option (List String)))
      none = none := by
  induction vals with
  | nil => rfl
  | cons v vs ih => simpa using ih

theorem toStringArray_loop_nil_element (acc : List String) (vals : List (Option String))
    (h : none ∈ vals) :
    vals.foldl
      (fun result val =>
        match result, val with
        | some result, some str => some (result ++ [str])
        | _, _ => none)
      (some acc) = none := by
  induction vals generalizing acc with
  | nil => cases h
  | cons v vs ih =>
    cases v with
    | none => simpa using toStringArray_loop_none vs
    | some str =>
      have hvs : none ∈ vs := by simpa using h
      simpa using ih (acc ++ [str]) hvs

theorem toStringArray_strings (L : List String) : toStringArray (L.map some) = some L := by
  simpa [toStringArray] using toStringArray_loop_some [] L

theorem toStringArray_nil_element (vals : List (Option String)) (h : none ∈ vals) :
    toStringArray vals = none :=
  toStringArray_loop_nil_element [] vals h

theorem getOrDefault_empty (d : ResourceData) (key : ResourceData → String) :
    getOrDefault d key "" = key d := by
  unfold getOrDefault GetOk
  by_cases h : key d = ""
  · simp [h]
  · have hb : (key d != "") = true := bne_iff_ne.mpr h
    rw [hb]

theorem foldRune_self (tbl : FoldTable) (r : Nat) : foldRune tbl r r = true := by
  simp [foldRune]

theorem equalFoldRunes_refl (tbl : FoldTable) (s : List Char) :
    equalFoldRunes tbl s s = true := by
  induction s with
  | nil => rfl
  | cons c s ih => simp [equalFoldRunes, foldRune_self, ih]

theorem EqualFold_refl (tbl : FoldTable) (s : String) : EqualFold tbl s s = true :=
  equalFoldRunes_refl tbl s.data

theorem leBytes_length (n x : Nat) : (leBytes n x).length = n := by
  induction n generalizing x with
  | zero => rfl
  | succ n ih => simp [leBytes, ih]

theorem md5Sum_length (data : List Nat) : (md5Sum data).length = 16 := by
  simp [md5Sum, leBytes_length]

theorem sprintfHex_length (bytes : List Nat) :
    (sprintfHex bytes).length = 2 * bytes.length := by
  unfold sprintfHex
  show (List.flatMap _ _).length = _
  induction bytes with
  | nil => rfl
  | cons b bs ih => simp [List.flatMap_cons, ih]; omega

theorem hexDigit_mem (n : Nat) (h : n < 16) : hexDigit n ∈ "0123456789abcdef".data := by
  unfold hexDigit
  interval_cases n <;> decide

theorem sprintfHex_mem (bytes : List Nat) :
    ∀ c ∈ (sprintfHex bytes).data, c ∈ "0123456789abcdef".data := by
  intro c hc
  simp only [sprintfHex, List.mem_flatMap, List.mem_cons, List.mem_singleton,
    List.not_mem_nil, or_false] at hc
  obtain ⟨b, _, hb⟩ := hc
  rcases hb with rfl | rfl
  · exact hexDigit_mem _ (Nat.mod_lt _ (by decide))
  · exact hexDigit_mem _ (Nat.mod_lt _ (by decide))

theorem hex_toNat (c : Char) (h : c ∈ "0123456789abcdef".data) :
    c.toNat < 65 ∨ (90 < c.toNat ∧ c.toNat < 128) := by
  simp only [List.mem_cons, List.mem_singleton, List.not_mem_nil, or_false] at h
  rcases h with h | h | h | h | h | h | h | h | h | h | h | h | h | h | h | h <;>
    subst h <;> decide

theorem char_eq_of_toNat (a b : Char) (h : a.toNat = b.toNat) : a = b := by
  apply Char.ext
  apply UInt32.ext
  exact h

theorem foldRune_hex (tbl : FoldTable) (a b : Char)
    (ha : a ∈ "0123456789abcdef".data) (hb : b ∈ "0123456789abcdef".data) :
    foldRune tbl a.toNat b.toNat = true ↔ a = b := by
  constructor
  · intro h
    have ha2 := hex_toNat a ha
    have hb2 := hex_toNat b hb
    by_cases hab : b.toNat = a.toNat
    · exact (char_eq_of_toNat b a hab).symm
    · exfalso
      unfold foldRune at h
      rw [if_neg hab] at h
      simp only at h
      have hlt : max a.toNat b.toNat < 128 := by
        rcases ha2 with h1 | h1 <;> rcases hb2 with h2 | h2 <;> omega
      rw [if_pos hlt] at h
      have h3 := of_decide_eq_true h
      rcases ha2 with h1 | h1 <;> rcases hb2 with h2 | h2 <;> omega
  · rintro rfl
    exact foldRune_self tbl _

theorem equalFoldRunes_hex (tbl : FoldTable) (s t : List Char)
    (hs : ∀ c ∈ s, c ∈ "0123456789abcdef".data)
    (ht : ∀ c ∈ t, c ∈ "0123456789abcdef".data) :
    equalFoldRunes tbl s t = true ↔ s = t := by
  induction s generalizing t with
  | nil =>
    cases t with
    | nil => simp [equalFoldRunes]
    | cons b t => simp [equalFoldRunes]
  | cons a s ih =>
    cases t with
    | nil => simp [equalFoldRunes]
    | cons b t =>
      have hab := foldRune_hex tbl a b (hs a (List.mem_cons_self a s))
        (ht b (List.mem_cons_self b t))
      have hrec := ih t (fun c hc => hs c (List.mem_cons_of_mem a hc))
        (fun c hc => ht c (List.mem_cons_of_mem b hc))
      simp only [equalFoldRunes, List.cons.injEq]
      by_cases hf : foldRune tbl a.toNat b.toNat = true
      · rw [if_pos hf, hrec]
        exact ⟨fun h => ⟨hab.mp hf, h⟩, fun h => h.2⟩
      · rw [if_neg hf]
        constructor
        · intro h; exact absurd h (by decide)
        · intro h; exact absurd (hab.mpr h.1) hf

theorem Join_data (vals : List String) (sep : String) :
    (Join vals sep).data = sep.data.intercalate (vals.map String.data) := by
  induction vals with
  | nil => rfl
  | cons a rest ih =>
    cases rest with
    | nil => simp [Join, List.intercalate]
    | cons b rest =>
      rw [Join, String.data_append, String.data_append, ih]
      simp [List.intercalate, List.intersperse]

theorem map_data_injective (l1 l2 : List String)
    (h : l1.map String.data = l2.map String.data) : l1 = l2 := by
  have hinj : Function.Injective String.data := fun a b hab => String.ext hab
  exact (List.map_injective_iff.mpr hinj) h

theorem Join_sepfree_cases (L1 L2 : List String)
    (h1 : ∀ x ∈ L1, '#' ∉ x.data) (h2 : ∀ x ∈ L2, '#' ∉ x.data)
    (hj : Join L1 "#" = Join L2 "#") :
    L1 = L2 ∨ (L1 = [] ∧ L2 = [""]) ∨ (L1 = [""] ∧ L2 = []) := by
  have hd : ['#'].intercalate (L1.map String.data) = ['#'].intercalate (L2.map String.data) := by
    have := congrArg String.data hj
    rwa [Join_data, Join_data] at this
  have hs1 : ∀ l ∈ L1.map String.data, '#' ∉ l := by
    intro l hl
    obtain ⟨x, hx, rfl⟩ := List.mem_map.mp hl
    exact h1 x hx
  have hs2 : ∀ l ∈ L2.map String.data, '#' ∉ l := by
    intro l hl
    obtain ⟨x, hx, rfl⟩ := List.mem_map.mp hl
    exact h2 x hx
  by_cases e1 : L1 = []
  · by_cases e2 : L2 = []
    · left; rw [e1, e2]
    · right; left
      refine ⟨e1, ?_⟩
      have hne : L2.map String.data ≠ [] := by simpa using e2
      have hsp := List.splitOn_intercalate _ '#' hs2 hne
      rw [← hd, e1] at hsp
      have : L2.map String.data = [""].map String.data := by
        rw [← hsp]; rfl
      exact map_data_injective _ _ this
  · by_cases e2 : L2 = []
    · right; right
      refine ⟨?_, e2⟩
      have hne : L1.map String.data ≠ [] := by simpa using e1
      have hsp := List.splitOn_intercalate _ '#' hs1 hne
      rw [hd, e2] at hsp
      have : L1.map String.data = [""].map String.data := by
        rw [← hsp]; rfl
      exact map_data_injective _ _ this
    · left
      have hne1 : L1.map String.data ≠ [] := by simpa using e1
      have hne2 : L2.map String.data ≠ [] := by simpa using e2
      have hsp1 := List.splitOn_intercalate _ '#' hs1 hne1
      have hsp2 := List.splitOn_intercalate _ '#' hs2 hne2
      rw [hd, hsp2] at hsp1
      exact (map_data_injective _ _ hsp1).symm

theorem hexDigit_inj (m n : Nat) (hm : m < 16) (hn : n < 16)
    (h : hexDigit m = hexDigit n) : m = n := by
  unfold hexDigit at h
  interval_cases m <;> interval_cases n <;> first | rfl | (exact absurd h (by decide))

theorem leBytes_lt (n x : Nat) : ∀ b ∈ leBytes n x, b < 256 := by
  induction n generalizing x with
  | zero => intro b hb; cases hb
  | succ n ih =>
    intro b hb
    simp only [leBytes, List.mem_cons] at hb
    rcases hb with rfl | hb
    · exact Nat.mod_lt _ (by decide)
    · exact ih _ b hb

theorem md5Sum_lt (data : List Nat) : ∀ b ∈ md5Sum data, b < 256 := by
  intro b hb
  simp only [md5Sum, List.mem_append] at hb
  rcases hb with ((hb | hb) | hb) | hb <;> exact leBytes_lt _ _ b hb

theorem sprintfHex_inj (a b : List Nat) (ha : ∀ x ∈ a, x < 256) (hb : ∀ x ∈ b, x < 256)
    (h : sprintfHex a = sprintfHex b) : a = b := by
  have hd := congrArg String.data h
  simp only [sprintfHex] at hd
  clear h
  induction a generalizing b with
  | nil =>
    cases b with
    | nil => rfl
    | cons y b => simp [List.flatMap_cons] at hd
  | cons x a ih =>
    cases b with
    | nil => simp [List.flatMap_cons] at hd
    | cons y b =>
      simp only [List.flatMap_cons, List.cons_append, List.nil_append, List.cons.injEq] at hd
      obtain ⟨h1, h2, h3⟩ := hd
      have hx := ha x (List.mem_cons_self x a)
      have hy := hb y (List.mem_cons_self y b)
      have e1 := hexDigit_inj _ _ (Nat.mod_lt _ (by decide)) (Nat.mod_lt _ (by decide)) h1
      have e2 := hexDigit_inj _ _ (Nat.mod_lt _ (by decide)) (Nat.mod_lt _ (by decide)) h2
      have exy : x = y := by omega
      rw [exy, ih b (fun z hz => ha z (List.mem_cons_of_mem x hz))
        (fun z hz => hb z (List.mem_cons_of_mem y hz)) h3]

theorem getMD5Hash_length (L : List String) : (getMD5Hash L).length = 32 := by
  simp [getMD5Hash, sprintfHex_length, md5Sum_length]

theorem getMD5Hash_mem (L : List String) :
    ∀ c ∈ (getMD5Hash L).data, c ∈ "0123456789abcdef".data :=
  sprintfHex_mem _

theorem EqualFold_getMD5Hash (tbl : FoldTable) (L1 L2 : List String) :
    EqualFold tbl (getMD5Hash L1) (getMD5Hash L2) = true ↔ getMD5Hash L1 = getMD5Hash L2 := by
  have hfold := equalFoldRunes_hex tbl (getMD5Hash L1).data (getMD5Hash L2).data
    (getMD5Hash_mem L1) (getMD5Hash_mem L2)
  unfold EqualFold
  rw [hfold]
  exact ⟨fun h => String.ext h, fun h => congrArg String.data h⟩

theorem deletePolicy_calls (d : ResourceData) (m : Client) :
    (deletePolicy d m).calls = [Call.DeletePolicy d.id] ∧
      (deletePolicy d m).result = some (m.DeletePolicy d.id) :=
  ⟨rfl, rfl⟩

theorem GetOk_description (value : String) :
    (match GetOk value with
      | (description, true) => ({ Description := description } : UpdatePolicyOptions)
      | (_, false) => {}) = { Description := value } := by
  unfold GetOk
  by_cases h : value = ""
  · simp [h]
  · have hb : (value != "") = true := bne_iff_ne.mpr h
    rw [hb]

theorem suppressed_of_written (tbl : FoldTable) (k old new : String) (d : ResourceData)
    (L : List String) (hs : d.statements = L.map some)
    (hhash : d.policyHash = getMD5Hash L) (hetag : d.lastUpdateETag = d.ETag) :
    ignorePolicyFormatDiff tbl k old new d = some true := by
  simp [ignorePolicyFormatDiff, getOrDefault_empty, toStringArray_strings, hs, hhash, hetag,
    EqualFold_refl]

theorem Create_of_strings (s : PolicyResourceCrud) (L : List String) (R : Policy)
    (e : Option Error) (hL : s.D.statements = L.map some)
    (hcreate : s.Client.CreatePolicy s.D.name s.D.description s.D.compartment_id L
      = (some R, e)) :
    Create s = Outcome.returned
      { s with
        D := { s.D with policyHash := getMD5Hash L, lastUpdateETag := R.ETag }
        Res := some R
        calls := s.calls ++ [Call.CreatePolicy s.D.name s.D.description s.D.compartment_id
          L] } e := by
  simp only [Create, hL, toStringArray_strings, hcreate]

theorem Create_nil_element (s : PolicyResourceCrud) (h : none ∈ s.D.statements) :
    Create s = Outcome.panicked s := by
  simp only [Create, toStringArray_nil_element _ h]

theorem Update_nil_element (s : PolicyResourceCrud) (h : none ∈ s.D.statements) :
    Update s = Outcome.panicked s := by
  have hlist : GetOkList s.D.statements = (s.D.statements, true) := by
    unfold GetOkList
    cases hs : s.D.statements with
    | nil => rw [hs] at h; cases h
    | cons a l => rfl
  simp only [Update, hlist, toStringArray_nil_element _ h]

theorem nil_element_panics_before_any_request :
    (Create { D := nilElementRecord, Client := okClient }).result = none ∧
      (Create { D := nilElementRecord, Client := okClient }).calls = [] ∧
      (Update { D := nilElementRecord, Client := okClient }).result = none ∧
      (Update { D := nilElementRecord, Client := okClient }).calls = [] ∧
      ignorePolicyFormatDiff asciiTable "statements" "" "" nilElementRecord = none :=
  ⟨rfl, rfl, rfl, rfl, rfl⟩

/-! ## The claims -/

/-- C1, as stated, fails: on `caseDriftRecord` the observed ETag `E1` is not
the stored lastUpdateETag `e1`, and the fingerprint matches, yet the
diff-suppression function returns true, whatever the case-orbit table. -/
theorem ignorePolicyFormatDiff_suppresses_case_drift :
    caseDriftRecord.ETag ≠ caseDriftRecord.lastUpdateETag ∧
      ∀ tbl : FoldTable,
        ignorePolicyFormatDiff tbl "statements" "1" "1" caseDriftRecord = some true := by
  refine ⟨by decide, fun tbl => ?_⟩
  have hs : caseDriftRecord.statements = ["allow"].map some := rfl
  simp only [ignorePolicyFormatDiff, getOrDefault_empty, hs, toStringArray_strings]
  simp only [caseDriftRecord, EqualFold_refl, Bool.true_and]
  rfl

/-- C1, amended: for every record and every desired statement list L the
diff-suppression function returns, and it returns true if and only if the
stored policyHash equals getMD5Hash of L under `strings.EqualFold` and the
stored lastUpdateETag equals the observed ETag under `strings.EqualFold`, an
unset field being read as the empty string. When the stored policyHash is
itself a fingerprint the first condition is exact equality, and a record
whose stored pair is exactly the fingerprint of L and the observed ETag is
suppressed. -/
theorem ignorePolicyFormatDiff_iff_equalFold (tbl : FoldTable) (k old new : String)
    (d : ResourceData) (L : List String) :
    (ignorePolicyFormatDiff tbl k old new { d with statements := L.map some }).isSome = true ∧
      (ignorePolicyFormatDiff tbl k old new { d with statements := L.map some } = some true ↔
        EqualFold tbl d.policyHash (getMD5Hash L) = true ∧
          EqualFold tbl d.lastUpdateETag d.ETag = true) ∧
      (∀ L0 : List String,
        ignorePolicyFormatDiff tbl k old new
            { d with statements := L.map some, policyHash := getMD5Hash L0 } = some true ↔
          getMD5Hash L0 = getMD5Hash L ∧
            EqualFold tbl d.lastUpdateETag d.ETag = true) ∧
      ignorePolicyFormatDiff tbl k old new
        { d with statements := L.map some, policyHash := getMD5Hash L,
                 lastUpdateETag := d.ETag } = some true := by
  refine ⟨?_, ?_, ?_, ?_⟩
  · simp [ignorePolicyFormatDiff, toStringArray_strings]
  · simp [ignorePolicyFormatDiff, getOrDefault_empty, toStringArray_strings]
  · intro L0
    simp [ignorePolicyFormatDiff, getOrDefault_empty, toStringArray_strings,
      EqualFold_getMD5Hash]
  · simp [ignorePolicyFormatDiff, getOrDefault_empty, toStringArray_strings, EqualFold_refl]

/-- C2, as stated, fails: the two-element list `["a","b"]` and the
one-element list `["a#b"]` are different lists with the same joined string
and therefore the same fingerprint. -/
theorem getMD5Hash_separator_collision :
    ["a", "b"] ≠ ["a#b"] ∧ Join ["a", "b"] "#" = Join ["a#b"] "#" ∧
      getMD5Hash ["a", "b"] = getMD5Hash ["a#b"] :=
  ⟨by decide, by decide, rfl⟩

/-- C2, amended: for statement lists none of whose elements contains `#`,
equal fingerprints force the lists to be equal, or one to be empty and the
other to hold just the empty string, or the MD5 digest to collide on their
two different joined strings. -/
theorem getMD5Hash_eq_of_separator_free (L1 L2 : List String)
    (h1 : ∀ x ∈ L1, '#' ∉ x.data) (h2 : ∀ x ∈ L2, '#' ∉ x.data)
    (h : getMD5Hash L1 = getMD5Hash L2) :
    L1 = L2 ∨ (L1 = [] ∧ L2 = [""]) ∨ (L1 = [""] ∧ L2 = []) ∨
      (Join L1 "#" ≠ Join L2 "#" ∧
        md5Sum (bytesOf (Join L1 "#")) = md5Sum (bytesOf (Join L2 "#"))) := by
  have hsum : md5Sum (bytesOf (Join L1 "#")) = md5Sum (bytesOf (Join L2 "#")) :=
    sprintfHex_inj _ _ (md5Sum_lt _) (md5Sum_lt _) h
  by_cases hj : Join L1 "#" = Join L2 "#"
  · rcases Join_sepfree_cases L1 L2 h1 h2 hj with e | e | e
    · exact Or.inl e
    · exact Or.inr (Or.inl e)
    · exact Or.inr (Or.inr (Or.inl e))
  · exact Or.inr (Or.inr (Or.inr ⟨hj, hsum⟩))

theorem getMD5Hash_eq_of_separator_free_witness :
    (∀ x ∈ ([] : List String), '#' ∉ x.data) ∧ (∀ x ∈ [""], '#' ∉ x.data) ∧
      getMD5Hash [] = getMD5Hash [""] ∧
      (([] : List String) = [""] ∨ (([] : List String) = [] ∧ [""] = [""]) ∨
        (([] : List String) = [""] ∧ [""] = ([] : List String)) ∨
        (Join [] "#" ≠ Join [""] "#" ∧
          md5Sum (bytesOf (Join [] "#")) = md5Sum (bytesOf (Join [""] "#")))) :=
  ⟨by decide, by decide, rfl,
    getMD5Hash_eq_of_separator_free [] [""] (by decide) (by decide) rfl⟩

/-- C3, as stated, fails: Create runs for `freshRecord`, the remote create
succeeds with `driftedPolicy`, and SetData copies that same resource (same
ETag). The diff-suppression function returns true on the result, yet the
second pass issues an Update call, because SetData has overwritten the
description `d` of the record with the remote `D`. -/
theorem second_pass_updates_on_refreshed_description :
    driftedClient.CreatePolicy "p" "d" "c" freshStatements = (some driftedPolicy, none) ∧
      (Create { D := freshRecord, Client := driftedClient }).result = some none ∧
      (SetData { (Create { D := freshRecord, Client := driftedClient }).state with
        Res := some driftedPolicy }).result = some none ∧
      (∀ tbl : FoldTable,
        ignorePolicyFormatDiff tbl "statements" "" ""
          { (SetData { (Create { D := freshRecord, Client := driftedClient }).state with
              Res := some driftedPolicy }).record with
            statements := freshStatements.map some } = some true) ∧
      (∀ tbl : FoldTable,
        planAction tbl
          (SetData { (Create { D := freshRecord, Client := driftedClient }).state with
            Res := some driftedPolicy }).record freshConfig = Action.update) := by
  have hc := Create_of_strings { D := freshRecord, Client := driftedClient } freshStatements
    driftedPolicy none rfl rfl
  rw [hc]
  refine ⟨rfl, rfl, rfl, fun tbl => ?_, fun tbl => ?_⟩
  · exact suppressed_of_written tbl _ _ _ _ freshStatements rfl rfl rfl
  · have h2 : ignorePolicyFormatDiff tbl "statements" "" ""
        (planRecord (SetData { (Outcome.returned
          { D := { freshRecord with
                   policyHash := getMD5Hash freshStatements,
                   lastUpdateETag := driftedPolicy.ETag }
            Client := driftedClient
            Res := some driftedPolicy
            calls := [] ++ [Call.CreatePolicy freshRecord.name freshRecord.description
              freshRecord.compartment_id freshStatements] } none).state with
          Res := some driftedPolicy }).record freshConfig) = some true :=
      suppressed_of_written tbl _ _ _ _ freshStatements rfl rfl rfl
    simp only [planAction]
    rw [h2]
    rfl

/-- C3, amended: when Create runs with desired statements L, every element
read as a string, and the remote create succeeds with R, and SetData then
copies a resource whose ETag is the ETag of R, then Create sends the one
create request and both return without error, the diff-suppression function
on the resulting record with desired statements L returns true, and the
second pass replaces the resource when the copied name differs from the
desired one, issues an Update call when the copied description or
compartment_id differs, and issues nothing when all three are the desired
ones. -/
theorem create_then_setData_second_pass (tbl : FoldTable) (k old new : String)
    (s : PolicyResourceCrud) (L : List String) (R R2 : Policy)
    (hL : s.D.statements = L.map some)
    (hcreate : s.Client.CreatePolicy s.D.name s.D.description s.D.compartment_id L
      = (some R, none))
    (hetag : R2.ETag = R.ETag) :
    (Create s).result = some none ∧
      (Create s).calls = s.calls ++
        [Call.CreatePolicy s.D.name s.D.description s.D.compartment_id L] ∧
      (SetData { (Create s).state with Res := some R2 }).result = some none ∧
      ignorePolicyFormatDiff tbl k old new
        { (SetData { (Create s).state with Res := some R2 }).record with
          statements := L.map some } = some true ∧
      planAction tbl (SetData { (Create s).state with Res := some R2 }).record
          { name := s.D.name, description := s.D.description,
            compartment_id := s.D.compartment_id, statements := L }
        = (if s.D.name ≠ R2.Name then Action.replace
           else if s.D.description ≠ R2.Description ∨
               s.D.compartment_id ≠ R2.CompartmentID then Action.update
           else Action.noop) ∧
      (R2.Name = s.D.name ∧ R2.Description = s.D.description ∧
          R2.CompartmentID = s.D.compartment_id →
        planAction tbl (SetData { (Create s).state with Res := some R2 }).record
          { name := s.D.name, description := s.D.description,
            compartment_id := s.D.compartment_id, statements := L } = Action.noop) := by
  rw [Create_of_strings s L R none hL hcreate]
  have hsup : ∀ k2 old2 new2 : String, ignorePolicyFormatDiff tbl k2 old2 new2
      { (SetData { (Outcome.returned
          { s with
            D := { s.D with policyHash := getMD5Hash L, lastUpdateETag := R.ETag }
            Res := some R
            calls := s.calls ++ [Call.CreatePolicy s.D.name s.D.description
              s.D.compartment_id L] } none).state with Res := some R2 }).record with
        statements := L.map some } = some true := fun k2 old2 new2 =>
    suppressed_of_written tbl k2 old2 new2 _ L rfl rfl hetag.symm
  have hplan : planAction tbl (SetData { (Outcome.returned
          { s with
            D := { s.D with policyHash := getMD5Hash L, lastUpdateETag := R.ETag }
            Res := some R
            calls := s.calls ++ [Call.CreatePolicy s.D.name s.D.description
              s.D.compartment_id L] } none).state with Res := some R2 }).record
        { name := s.D.name, description := s.D.description,
          compartment_id := s.D.compartment_id, statements := L }
      = (if s.D.name ≠ R2.Name then Action.replace
         else if s.D.description ≠ R2.Description ∨
             s.D.compartment_id ≠ R2.CompartmentID then Action.update
         else Action.noop) := by
    have h2 : ignorePolicyFormatDiff tbl "statements" "" ""
        (planRecord (SetData { (Outcome.returned
          { s with
            D := { s.D with policyHash := getMD5Hash L, lastUpdateETag := R.ETag }
            Res := some R
            calls := s.calls ++ [Call.CreatePolicy s.D.name s.D.description
              s.D.compartment_id L] } none).state with Res := some R2 }).record
          { name := s.D.name, description := s.D.description,
            compartment_id := s.D.compartment_id, statements := L }) = some true :=
      suppressed_of_written tbl _ _ _ _ L rfl rfl hetag.symm
    simp only [planAction, h2]
    simp [Outcome.state, Outcome.record, SetData]
  refine ⟨rfl, rfl, rfl, hsup k old new, hplan, ?_⟩
  rintro ⟨h1, h2, h3⟩
  rw [hplan]
  simp [h1, h2, h3]

theorem create_then_setData_second_pass_witness :
    freshRecord.statements = freshStatements.map some ∧
      echoClient.CreatePolicy freshRecord.name freshRecord.description
        freshRecord.compartment_id freshStatements = (some echoPolicy, none) ∧
      echoPolicy.ETag = echoPolicy.ETag ∧
      ignorePolicyFormatDiff asciiTable "statements" "" ""
        { (SetData { (Create { D := freshRecord, Client := echoClient }).state with
            Res := some echoPolicy }).record with
          statements := freshStatements.map some } = some true ∧
      planAction asciiTable
        (SetData { (Create { D := freshRecord, Client := echoClient }).state with
          Res := some echoPolicy }).record
        { name := freshRecord.name, description := freshRecord.description,
          compartment_id := freshRecord.compartment_id, statements := freshStatements }
        = Action.noop :=
  ⟨rfl, rfl, rfl,
    (create_then_setData_second_pass asciiTable "statements" "" ""
      { D := freshRecord, Client := echoClient } freshStatements echoPolicy echoPolicy
      rfl rfl rfl).2.2.2.1,
    (create_then_setData_second_pass asciiTable "statements" "" ""
      { D := freshRecord, Client := echoClient } freshStatements echoPolicy echoPolicy
      rfl rfl rfl).2.2.2.2.2 ⟨rfl, rfl, rfl⟩⟩

/-- C4, as stated, fails for the empty list: on `emptiedRecord` a successful
Update sends a request without statements, leaves policyHash at the old
fingerprint, which is not getMD5Hash of the empty list, and replaces
lastUpdateETag `E0` by `E1`. -/
theorem update_empty_list_replaces_etag_only :
    emptiedRecord.statements = [] ∧
      (Update { D := emptiedRecord, Client := okClient }).result = some none ∧
      (Update { D := emptiedRecord, Client := okClient }).calls
        = [Call.UpdatePolicy "ocid1.policy.1" { Description := "d", Statements := none }] ∧
      (Update { D := emptiedRecord, Client := okClient }).record.policyHash
        = emptiedRecord.policyHash ∧
      (Update { D := emptiedRecord, Client := okClient }).record.policyHash
        ≠ getMD5Hash [] ∧
      emptiedRecord.lastUpdateETag = "E0" ∧
      (Update { D := emptiedRecord, Client := okClient }).record.lastUpdateETag = "E1" := by
  refine ⟨rfl, rfl, rfl, rfl, ?_, rfl, rfl⟩
  set_option maxRecDepth 100000 in decide

/-- C4, amended: for a non-empty desired statement list L, every element
read as a string, and a successful remote update answering R, Update sends
exactly one request, carrying L in order as its statements, returns without
error, and leaves policyHash equal to getMD5Hash L and lastUpdateETag equal
to the ETag of R. -/
theorem update_nonempty_writes_both (s : PolicyResourceCrud) (L : List String) (R : Policy)
    (hne : L ≠ []) (hL : s.D.statements = L.map some)
    (hupdate : s.Client.UpdatePolicy s.D.id
      { Description := s.D.description, Statements := some L } = (some R, none)) :
    (Update s).result = some none ∧
      (Update s).calls = s.calls ++ [Call.UpdatePolicy s.D.id
        { Description := s.D.description, Statements := some L }] ∧
      (Update s).record.policyHash = getMD5Hash L ∧
      (Update s).record.lastUpdateETag = R.ETag := by
  have hlist : GetOkList (L.map some) = (L.map some, true) := by
    unfold GetOkList
    cases L with
    | nil => exact absurd rfl hne
    | cons a l => rfl
  have hu : Update s = Outcome.returned
      { s with
        D := { s.D with policyHash := getMD5Hash L, lastUpdateETag := R.ETag }
        Res := some R
        calls := s.calls ++ [Call.UpdatePolicy s.D.id
          { Description := s.D.description, Statements := some L }] } none := by
    simp only [Update, GetOk_description, hL, hlist, toStringArray_strings, hupdate]
  rw [hu]
  exact ⟨rfl, rfl, rfl, rfl⟩

theorem update_nonempty_writes_both_witness :
    ["deny"] ≠ [] ∧ writtenRecord.statements = ["deny"].map some ∧
      okClient.UpdatePolicy writtenRecord.id
        { Description := writtenRecord.description,
          Statements := some ["deny"] } = (some activePolicy, none) ∧
      (Update { D := writtenRecord, Client := okClient }).result = some none ∧
      (Update { D := writtenRecord, Client := okClient }).calls
        = [] ++ [Call.UpdatePolicy writtenRecord.id
          { Description := writtenRecord.description, Statements := some ["deny"] }] ∧
      (Update { D := writtenRecord, Client := okClient }).record.policyHash
        = getMD5Hash ["deny"] ∧
      (Update { D := writtenRecord, Client := okClient }).record.lastUpdateETag
        = activePolicy.ETag :=
  ⟨by decide, rfl, rfl,
    update_nonempty_writes_both { D := writtenRecord, Client := okClient } ["deny"]
      activePolicy (by decide) rfl rfl⟩

/-- C5, the code at the failing input: when the remote call fails without a
resource, Create and Update have already written policyHash and then panic
on the nil resource instead of returning the error; when it fails with a
resource, they return the error with policyHash and lastUpdateETag both
overwritten. -/
theorem create_and_update_write_record_on_remote_error :
    failingClient.CreatePolicy freshRecord.name freshRecord.description
        freshRecord.compartment_id freshStatements
        = (none, some "503 Service Unavailable") ∧
      (Create { D := freshRecord, Client := failingClient }).result = none ∧
      freshRecord.policyHash = "" ∧
      (Create { D := freshRecord, Client := failingClient }).record.policyHash
        = getMD5Hash freshStatements ∧
      (Update { D := writtenRecord, Client := failingClient }).result = none ∧
      writtenRecord.policyHash = getMD5Hash ["allow"] ∧
      (Update { D := writtenRecord, Client := failingClient }).record.policyHash
        = getMD5Hash ["deny"] ∧
      (Create { D := freshRecord, Client := halfFailingClient }).result = some (some "500") ∧
      (Create { D := freshRecord, Client := halfFailingClient }).record.policyHash
        = getMD5Hash freshStatements ∧
      (Create { D := freshRecord, Client := halfFailingClient }).record.lastUpdateETag = "E9" ∧
      (Update { D := writtenRecord, Client := halfFailingClient }).result = some (some "500") ∧
      (Update { D := writtenRecord, Client := halfFailingClient }).record.policyHash
        = getMD5Hash ["deny"] ∧
      (Update { D := writtenRecord, Client := halfFailingClient }).record.lastUpdateETag = "E9" ∧
      getMD5Hash ["deny"] ≠ getMD5Hash ["allow"] ∧
      getMD5Hash freshStatements ≠ "" := by
  refine ⟨rfl, rfl, rfl, rfl, rfl, rfl, rfl, rfl, rfl, rfl, rfl, rfl, rfl, ?_, ?_⟩
  · set_option maxRecDepth 100000 in decide
  · set_option maxRecDepth 100000 in decide

/-- C6, the code at the failing input: on a remote that accepts the delete
request and still reports the policy in a DeletedPending state, deletePolicy
returns success after the single DeletePolicy request, without any Get. -/
theorem deletePolicy_returns_without_polling :
    (deletePolicy writtenRecord deletingClient).result = some none ∧
      (deletePolicy writtenRecord deletingClient).calls
        = [Call.DeletePolicy "ocid1.policy.1"] ∧
      deletingClient.GetPolicy "ocid1.policy.1" = (some deletingPolicy, none) ∧
      deletingPolicy.State ∈ DeletedPending { D := writtenRecord, Client := deletingClient } ∧
      deletingPolicy.State ∉ DeletedTarget { D := writtenRecord, Client := deletingClient } :=
  ⟨rfl, rfl, rfl, by decide, by decide⟩

/-- C7, as stated, fails: on a record named `p` in compartment `c`, SetData
with the fetched `activePolicy` leaves the name and compartment of the
remote resource in the record. -/
theorem setData_overwrites_name_and_compartment :
    writtenRecord.name = "p" ∧ writtenRecord.compartment_id = "c" ∧
      (SetData { D := writtenRecord, Client := okClient, Res := some activePolicy }).record.name
        = "remote-name" ∧
      (SetData { D := writtenRecord, Client := okClient, Res := some activePolicy
        }).record.compartment_id = "ocid1.compartment.2" :=
  ⟨rfl, rfl, rfl, rfl⟩

/-- C7, amended: SetData returns and overwrites the name and compartment_id
of the record with the Name and CompartmentID of the fetched resource; each
of the two fields is unchanged exactly when the remote value equals the
recorded one. -/
theorem setData_name_and_compartment_from_remote (s : PolicyResourceCrud) (R : Policy) :
    (SetData { s with Res := some R }).result = some none ∧
      (SetData { s with Res := some R }).record.name = R.Name ∧
      (SetData { s with Res := some R }).record.compartment_id = R.CompartmentID ∧
      ((SetData { s with Res := some R }).record.name = s.D.name ↔ R.Name = s.D.name) ∧
      ((SetData { s with Res := some R }).record.compartment_id = s.D.compartment_id ↔
        R.CompartmentID = s.D.compartment_id) :=
  ⟨rfl, rfl, rfl, Iff.rfl, Iff.rfl⟩

/-- C8: after SetData the ETag, state, time_created and statements of the
record are the ETag, State, rendered TimeCreated and Statements of the
fetched resource (the same strings in the same order, as `toStringArray`
reads them back), whatever the record held before. -/
theorem setData_copies_remote_fields (s : PolicyResourceCrud) (R : Policy) :
    (SetData { s with Res := some R }).result = some none ∧
      (SetData { s with Res := some R }).record.ETag = R.ETag ∧
      (SetData { s with Res := some R }).record.state = R.State ∧
      (SetData { s with Res := some R }).record.time_created = R.TimeCreated.text ∧
      (SetData { s with Res := some R }).record.statements = R.Statements.map some ∧
      toStringArray (SetData { s with Res := some R }).record.statements
        = some R.Statements :=
  ⟨rfl, rfl, rfl, rfl, rfl, toStringArray_strings R.Statements⟩

/-- C9: for statement lists none of whose elements contains `#`, equal
joined strings, the input getMD5Hash hashes, force the lists to be equal, or
one to be empty and the other to hold just the empty string; the two
fingerprints are then equal. -/
theorem join_injective_on_separator_free (L1 L2 : List String)
    (h1 : ∀ x ∈ L1, '#' ∉ x.data) (h2 : ∀ x ∈ L2, '#' ∉ x.data)
    (hj : Join L1 "#" = Join L2 "#") :
    (L1 = L2 ∨ (L1 = [] ∧ L2 = [""]) ∨ (L1 = [""] ∧ L2 = [])) ∧
      getMD5Hash L1 = sprintfHex (md5Sum (bytesOf (Join L1 "#"))) ∧
      getMD5Hash L2 = sprintfHex (md5Sum (bytesOf (Join L2 "#"))) ∧
      getMD5Hash L1 = getMD5Hash L2 := by
  refine ⟨Join_sepfree_cases L1 L2 h1 h2 hj, rfl, rfl, ?_⟩
  unfold getMD5Hash
  rw [hj]

theorem join_injective_on_separator_free_witness :
    (∀ x ∈ ["a", "b"], '#' ∉ x.data) ∧ (∀ x ∈ ["a", "b"], '#' ∉ x.data) ∧
      Join ["a", "b"] "#" = Join ["a", "b"] "#" ∧
      (["a", "b"] = ["a", "b"] ∨ (["a", "b"] = [] ∧ ["a", "b"] = [""]) ∨
        (["a", "b"] = [""] ∧ ["a", "b"] = [])) :=
  ⟨by decide, by decide, rfl,
    (join_injective_on_separator_free ["a", "b"] ["a", "b"] (by decide) (by decide) rfl).1⟩

/-- C10: getMD5Hash yields exactly 32 characters, each one of
`0123456789abcdef`, and on two fingerprints `strings.EqualFold` holds exactly
when they are equal strings. -/
theorem getMD5Hash_is_lower_hex (tbl : FoldTable) (L1 L2 : List String) :
    (getMD5Hash L1).length = 32 ∧
      (∀ c ∈ (getMD5Hash L1).data, c ∈ "0123456789abcdef".data) ∧
      (EqualFold tbl (getMD5Hash L1) (getMD5Hash L2) = true ↔
        getMD5Hash L1 = getMD5Hash L2) :=
  ⟨getMD5Hash_length L1, getMD5Hash_mem L1, EqualFold_getMD5Hash tbl L1 L2⟩

end PolicyResource
